import Mathlib

/-!
KTSprod_App: authentication middleware and withdrawal handler.

A shallow embedding of `src/api-server.js`:

* `authenticateToken` (lines 80-95) with the token extraction
  `authHeader && authHeader.split(' ')[1]`;
* the `jwt.sign` call of `POST /api/login` (lines 282-290);
* the `POST /api/withdrawals` handler (lines 411-443) with its
  `try / catch / finally` control flow over one pooled connection;
* the transaction code `'W' + Date.now().toString().slice(-8)` (line 419);
* the `GET /api/devices` route (lines 333-349).

JavaScript strings are Lean `String`s, handled through their character lists.
`undefined` is `none`.  The `jsonwebtoken` and `mysql2` packages are
dependencies, not code of the repository: the middleware takes the verifier as
an argument, and a reference model of each package is given where a statement
needs one.
-/

namespace KTS

/-! ## JavaScript string helpers -/

/-- `String.prototype.split(sep)` for a one-character separator, on character
lists: the text is cut at every occurrence of `sep`; the result always has at
least one segment (`''.split(' ')` is `['']`). -/
def splitChars (sep : Char) : List Char → List (List Char)
  | [] => [[]]
  | c :: cs =>
    if c = sep then [] :: splitChars sep cs
    else
      match splitChars sep cs with
      | [] => [[c]]
      | seg :: segs => (c :: seg) :: segs

/-- `s.split(sep)` on strings. -/
def jsSplit (sep : Char) (s : String) : List String :=
  (splitChars sep s.data).map String.mk

/-- JavaScript truthiness of a value that is `undefined` or a string:
`undefined` and `''` are falsy. -/
def truthy : Option String → Bool
  | none => false
  | some s => decide (s ≠ "")

/-! ## Responses -/

/-- A scalar JSON value. -/
inductive JsonAtom where
  | str (s : String)
  | num (n : Nat)
  deriving DecidableEq

/-- A JSON value of a response body: a scalar or an object of scalars. -/
inductive JsonVal where
  | atom (a : JsonAtom)
  | obj (fields : List (String × JsonAtom))
  deriving DecidableEq

/-- A JSON object, in field order. -/
abbrev JsonObj := List (String × JsonVal)

/-- A string-valued field. -/
def jstr (s : String) : JsonVal := .atom (.str s)

/-- A number-valued field. -/
def jnum (n : Nat) : JsonVal := .atom (.num n)

/-- What `res.status(code).json(body)` sends (`res.json(body)` has status 200). -/
structure Response where
  status : Nat
  body : JsonObj
  deriving DecidableEq

/-! ## Authentication middleware (lines 76-95) -/

/-- Why `jwt.verify` throws. -/
inductive AuthError where
  | malformed
  | signatureInvalid
  | expired
  deriving DecidableEq

/-- The object `jwt.verify` returns for a token of this server: the payload
that login signed, with the `iat` and `exp` the signer added (seconds). -/
structure Claims where
  id : Nat
  username : String
  email : String
  iat : Nat
  exp : Nat
  deriving DecidableEq

/-- `process.env.JWT_SECRET || 'your-secret-key'`: the fallback is taken when
the variable is unset or empty. -/
def secretExpr (envSecret : Option String) : String :=
  if truthy envSecret then envSecret.getD "" else "your-secret-key"

/-- `const JWT_SECRET = process.env.JWT_SECRET || 'your-secret-key'` (line 77). -/
def JWT_SECRET (envSecret : Option String) : String := secretExpr envSecret

/-- `authHeader && authHeader.split(' ')[1]` (line 82): `undefined` for an
absent header, `''` for an empty one, otherwise the second space-separated
segment, `undefined` when there is none. -/
def extractToken (authHeader : Option String) : Option String :=
  if truthy authHeader then
    match authHeader with
    | none => none
    | some h => (jsSplit ' ' h)[1]?
  else authHeader

/-- What one run of the middleware did: the response it sent (if any), whether
it called `next()`, the value it assigned to `req.user` (if any), and the
arguments of each `jwt.verify` call, in order. -/
structure AuthOutcome where
  response : Option Response
  nextCalled : Bool
  user : Option Claims
  verifyCalls : List (String × String)
  deriving DecidableEq

/-- `authenticateToken` (lines 80-95).  `verify token secret` is
`jwt.verify(token, JWT_SECRET)` at the time of the request: `.ok payload` when
it returns, `.error _` when it throws.  `next()` hands over to the route and
does not throw back into the middleware. -/
def authenticateToken (verify : String → String → Except AuthError Claims)
    (secret : String) (authHeader : Option String) : AuthOutcome :=
  let token := extractToken authHeader
  if !truthy token then
    { response := some ⟨401, [("error", jstr "Authentication required")]⟩,
      nextCalled := false, user := none, verifyCalls := [] }
  else
    let tok := token.getD ""
    match verify tok secret with
    | .ok user =>
      { response := none, nextCalled := true, user := some user,
        verifyCalls := [(tok, secret)] }
    | .error _ =>
      { response := some ⟨403, [("error", jstr "Invalid token")]⟩,
        nextCalled := false, user := none, verifyCalls := [(tok, secret)] }

/-! ## Token issuer and verifier (spec §4.1)

`jwt.sign` and `jwt.verify` belong to the `jsonwebtoken` package, which is a
dependency: its code is not in the repository.  The model follows §4.1 of the
specification: a token embeds the claims plus an expiry, signed under a
secret; `verify` fails with `malformed` when the string cannot be parsed, with
`signatureInvalid` when the signature does not match the secret, with `expired`
when the current time exceeds the embedded expiry, and otherwise returns the
embedded claims.  A token is three dot-separated parts: algorithm tag,
serialised claims, signature over the first two parts.  The keyed hash is a
parameter `hmac`; the serialisation is an injective text encoding without dots
or spaces, standing for base64url JSON.  Times are the clock of the package, in
seconds. -/

/-- The payload object that login passes to `jwt.sign`. -/
structure Payload where
  id : Nat
  username : String
  email : String
  deriving DecidableEq

/-- Escape of one character: the escape character, the part separator, the
space and the field separator are written as two characters. -/
def escChar (c : Char) : List Char :=
  if c = '_' then ['_', '_']
  else if c = '.' then ['_', 'd']
  else if c = ' ' then ['_', 's']
  else if c = '~' then ['_', 't']
  else [c]

/-- Escape of a text. -/
def escape : List Char → List Char
  | [] => []
  | c :: cs => escChar c ++ escape cs

/-- The character an escape code stands for. -/
def unescCode (k : Char) : Option Char :=
  if k = '_' then some '_'
  else if k = 'd' then some '.'
  else if k = 's' then some ' '
  else if k = 't' then some '~'
  else none

/-- Inverse of `escape`; `none` on a dangling or unknown escape. -/
def unescape : List Char → Option (List Char)
  | [] => some []
  | [c] => if c = '_' then none else some [c]
  | c :: k :: rest =>
    if c = '_' then
      match unescCode k, unescape rest with
      | some x, some r => some (x :: r)
      | _, _ => none
    else (unescape (k :: rest)).map (c :: ·)

/-- Value of a decimal digit character. -/
def digitVal (c : Char) : Option Nat :=
  if 48 ≤ c.toNat ∧ c.toNat ≤ 57 then some (c.toNat - 48) else none

/-- Reading of decimal digits onto an accumulator. -/
def parseNatAux : List Char → Nat → Option Nat
  | [], acc => some acc
  | c :: cs, acc =>
    match digitVal c with
    | none => none
    | some d => parseNatAux cs (10 * acc + d)

/-- Reading of a non-empty string of decimal digits. -/
def parseNat (l : List Char) : Option Nat :=
  if l = [] then none else parseNatAux l 0

/-- Modelled from the spec: the serialised claims of a token (§3 "opaque signed
string encoding an Identity claim plus expiry"), as five fields separated by
`~`. -/
def encodeClaims (c : Claims) : List Char :=
  Nat.toDigits 10 c.id ++ '~' :: (Nat.toDigits 10 c.iat ++ '~' ::
    (Nat.toDigits 10 c.exp ++ '~' ::
      (escape c.username.data ++ '~' :: escape c.email.data)))

/-- Modelled from the spec: the parse of serialised claims, inverse of
`encodeClaims`; `none` when the text cannot be parsed. -/
def decodeClaims (l : List Char) : Option Claims :=
  match splitChars '~' l with
  | [a, b, c, d, e] =>
    match parseNat a, parseNat b, parseNat c, unescape d, unescape e with
    | some id, some iat, some exp, some u, some m => some ⟨id, ⟨u⟩, ⟨m⟩, iat, exp⟩
    | _, _, _, _, _ => none
  | _ => none

/-- Seconds in a time unit letter. -/
def unitSeconds (u : Char) : Option Nat :=
  if u = 's' then some 1
  else if u = 'm' then some 60
  else if u = 'h' then some 3600
  else if u = 'd' then some 86400
  else none

/-- Modelled from the spec: the time span an `expiresIn` string stands for, in
seconds, for strings of the form digits + unit letter (`'24h'` is the "24
hours" of §4.1; `'30m'`, `'7d'`); other strings are outside the model
(`none`). -/
def timespan (s : String) : Option Nat :=
  match s.data.reverse with
  | [] => none
  | u :: ds =>
    match unitSeconds u, parseNat ds.reverse with
    | some k, some n => some (n * k)
    | _, _ => none

/-- The algorithm tag that starts every token. -/
def algTag : List Char := ['H', 'S', '2', '5', '6']

namespace jwt

/-- Modelled from the spec: the token that embeds the claims `c`, signed with
`secret` (§4.1 `issue`). -/
def encode (hmac : List Char → List Char → Nat) (c : Claims) (secret : String) : String :=
  let signed := algTag ++ '.' :: encodeClaims c
  ⟨signed ++ '.' :: Nat.toDigits 10 (hmac secret.data signed)⟩

/-- Modelled from the spec: `jwt.sign(payload, secret, { expiresIn })` of the
`jsonwebtoken` dependency when the clock reads `now` seconds (§4.1 `issue`):
the token embeds the payload, `iat = now` and an expiry `expiresIn` after it;
`none` when the call throws. -/
def sign (hmac : List Char → List Char → Nat) (p : Payload) (secret : String)
    (expiresIn : String) (now : Nat) : Option String :=
  match timespan expiresIn with
  | none => none
  | some span => some (encode hmac ⟨p.id, p.username, p.email, now, now + span⟩ secret)

/-- Modelled from the spec: whether a token with expiry `exp` is expired at
`now`.  §4.1 says "current time exceeds the embedded expiry"; the package
also rejects at the instant `now = exp`.  The verdict at that one instant is
the parameter `rejectAtExp`. -/
def isExpired (rejectAtExp : Bool) (exp now : Nat) : Bool :=
  decide (exp < now) || (rejectAtExp && decide (exp = now))

/-- Modelled from the spec: `jwt.verify(token, secret)` of the `jsonwebtoken`
dependency when the clock reads `now` seconds (§4.1 `verify`): `malformed`
when the token cannot be parsed, then `signatureInvalid` when the signature
does not match the secret, then `expired`, otherwise the embedded claims. -/
def verify (hmac : List Char → List Char → Nat) (rejectAtExp : Bool) (now : Nat)
    (token secret : String) : Except AuthError Claims :=
  match splitChars '.' token.data with
  | [h, b, s] =>
    if h ≠ algTag then .error .malformed
    else
      match decodeClaims b, parseNat s with
      | some c, some sig =>
        if sig ≠ hmac secret.data (h ++ '.' :: b) then .error .signatureInvalid
        else if isExpired rejectAtExp c.exp now then .error .expired
        else .ok c
      | _, _ => .error .malformed
  | _ => .error .malformed

end jwt

/-- A small keyed hash, for running the model on examples. -/
def sampleMac (key msg : List Char) : Nat :=
  (key ++ '|' :: msg).foldl (fun a c => (a * 31 + c.toNat) % 1000003) 7

/-! ## `POST /api/login` (lines 261-304) -/

/-- A row of the users table. -/
structure UserRow where
  ID : Nat
  user_login : String
  user_email : String
  user_pass : String
  deriving DecidableEq

/-- `verifyWordPressPassword` (lines 307-311): a plain comparison. -/
def verifyWordPressPassword (password hash : String) : Bool :=
  decide (password = hash)

/-- The `jwt.sign` call of login (lines 282-290) for the row `user`.  The
secret is `process.env.JWT_SECRET || 'your-secret-key'`, read from the same
environment as `JWT_SECRET` at start-up. -/
def loginToken (hmac : List Char → List Char → Nat) (envSecret : Option String)
    (user : UserRow) (now : Nat) : Option String :=
  jwt.sign hmac ⟨user.ID, user.user_login, user.user_email⟩ (secretExpr envSecret) "24h" now

/-- The login handler.  `users` is the outcome of the `SELECT` by
`user_login` (`none` when the query throws), `password` comes from the body. -/
def login (hmac : List Char → List Char → Nat) (envSecret : Option String)
    (users : Option (List UserRow)) (password : String) (now : Nat) : Response :=
  match users with
  | none => ⟨500, [("error", jstr "Internal server error")]⟩
  | some [] => ⟨401, [("error", jstr "Invalid credentials")]⟩
  | some (user :: _) =>
    if !verifyWordPressPassword password user.user_pass then
      ⟨401, [("error", jstr "Invalid credentials")]⟩
    else
      match loginToken hmac envSecret user now with
      | none => ⟨500, [("error", jstr "Internal server error")]⟩
      | some token =>
        ⟨200, [("token", jstr token),
               ("user", .obj [("id", .num user.ID), ("username", .str user.user_login),
                              ("email", .str user.user_email)])]⟩

/-! ## `POST /api/withdrawals` (lines 411-443)

The pool and the connection belong to the `mysql2` package, a dependency.
They are modelled after the transactional scope of §4.3 of the specification
by a small state: the rows of `wp_device_withdrawals` that are committed
(visible), the rows written inside the open transaction of the connection, and
the connections that are out of the pool.  An injected fault (§8 "simulated
persistence fault") makes the call throw without changing the data.  Every
call is logged in order. -/

/-- A persistence-layer error (its message). -/
abbrev DbError := String

/-- JSON body of the request; an absent field is `none`. -/
structure WithdrawalBody where
  amount : Option JsonAtom
  withdrawal_account : Option JsonAtom
  account_name : Option JsonAtom
  payment_method : Option JsonAtom
  deriving DecidableEq

/-- A row of `wp_device_withdrawals`: the six inserted columns and the
auto-increment id. -/
structure WithdrawalRow where
  id : Nat
  account_no : Nat
  transaction_code : String
  amount : Option JsonAtom
  withdrawal_account : Option JsonAtom
  account_name : Option JsonAtom
  payment_method : JsonAtom
  deriving DecidableEq

/-- One observable call. -/
inductive Event where
  | getConnection
  | beginTransaction (conn : Nat)
  | insert (conn : Nat) (transaction_code : String)
  | commit (conn : Nat)
  | rollback (conn : Nat)
  | release (conn : Nat)
  | consoleError (msg : String)
  | respond (r : Response)
  deriving DecidableEq

/-- The faults injected into one run: `some e` makes that call throw `e`. -/
structure Faults where
  getConnection : Option DbError
  beginTransaction : Option DbError
  insert : Option DbError
  commit : Option DbError
  rollback : Option DbError
  deriving DecidableEq

/-- Database, pool and response state. -/
structure World where
  committed : List WithdrawalRow
  pending : List WithdrawalRow
  inTransaction : Bool
  nextId : Nat
  leased : List Nat
  response : Option Response
  events : List Event
  deriving DecidableEq

/-- A computation that may throw, over the world; the world survives a throw. -/
def M (α : Type) : Type := World → Except DbError α × World

instance : Monad M where
  pure a := fun w => (.ok a, w)
  bind m k := fun w =>
    match m w with
    | (.ok a, w1) => k a w1
    | (.error e, w1) => (.error e, w1)

instance : MonadExcept DbError M where
  throw e := fun w => (.error e, w)
  tryCatch body handler := fun w =>
    match body w with
    | (.ok a, w1) => (.ok a, w1)
    | (.error e, w1) => handler e w1

instance : MonadFinally M where
  tryFinally' body fin := fun w =>
    match body w with
    | (.ok a, w1) =>
      match fin (some a) w1 with
      | (.ok b, w2) => (.ok (a, b), w2)
      | (.error e, w2) => (.error e, w2)
    | (.error e, w1) =>
      match fin none w1 with
      | (.ok _, w2) => (.error e, w2)
      | (.error e2, w2) => (.error e2, w2)

/-- Append to the call log. -/
def logEvent (ev : Event) : M Unit :=
  fun w => (.ok (), { w with events := w.events ++ [ev] })

/-- Throw the injected fault, if any. -/
def failWith (fault : Option DbError) : M Unit :=
  fun w =>
    match fault with
    | some e => (.error e, w)
    | none => (.ok (), w)

/-- Modelled from the spec: `pool.getConnection()` of the `mysql2` dependency
(§5 "acquire one connection"): hands out connection `conn`. -/
def getConnection (f : Faults) (conn : Nat) : M Nat := do
  logEvent .getConnection
  failWith f.getConnection
  fun w => (.ok conn, { w with leased := conn :: w.leased })

/-- Modelled from the spec: `connection.beginTransaction()` of the `mysql2`
dependency (§4.3 "open a transactional scope"). -/
def beginTransaction (f : Faults) (conn : Nat) : M Unit := do
  logEvent (.beginTransaction conn)
  failWith f.beginTransaction
  fun w => (.ok (), { w with inTransaction := true })

/-- Modelled from the spec: `connection.query('INSERT INTO
wp_device_withdrawals ...', params)` of the `mysql2` dependency (§4.3 "insert
one withdrawal record"): returns `insertId`.  Inside a transaction the row is
pending; outside one it is committed at once (autocommit). -/
def insertWithdrawal (f : Faults) (conn : Nat) (row : Nat → WithdrawalRow) : M Nat := do
  logEvent (.insert conn (row 0).transaction_code)
  failWith f.insert
  fun w =>
    let r := row w.nextId
    if w.inTransaction then
      (.ok w.nextId, { w with pending := w.pending ++ [r], nextId := w.nextId + 1 })
    else
      (.ok w.nextId, { w with committed := w.committed ++ [r], nextId := w.nextId + 1 })

/-- Modelled from the spec: `connection.commit()` of the `mysql2` dependency
(§4.3 "commit"): the pending rows become visible. -/
def commit (f : Faults) (conn : Nat) : M Unit := do
  logEvent (.commit conn)
  failWith f.commit
  fun w => (.ok (), { w with committed := w.committed ++ w.pending, pending := [],
                             inTransaction := false })

/-- Modelled from the spec: `connection.rollback()` of the `mysql2` dependency
(§4.3 "the scope is rolled back in full"): the pending rows are dropped. -/
def rollback (f : Faults) (conn : Nat) : M Unit := do
  logEvent (.rollback conn)
  failWith f.rollback
  fun w => (.ok (), { w with pending := [], inTransaction := false })

/-- Modelled from the spec: `connection.release()` of the `mysql2` dependency
(§5 "release the connection"): the connection is back in the pool. -/
def release (conn : Nat) : M Unit := do
  logEvent (.release conn)
  fun w => (.ok (), { w with leased := w.leased.erase conn })

/-- `res.status(code).json(body)`. -/
def respond (r : Response) : M Unit := do
  logEvent (.respond r)
  fun w => (.ok (), { w with response := some r })

/-- `s.slice(-k)` for `k > 0`: the last `k` characters, the whole string when
it is shorter. -/
def sliceLast (k : Nat) (s : String) : String :=
  ⟨s.data.drop (s.data.length - k)⟩

/-- `'W' + Date.now().toString().slice(-8)` (line 419), `now` being the value
of `Date.now()` (milliseconds). -/
def transaction_code (now : Nat) : String :=
  "W" ++ sliceLast 8 (Nat.repr now)

/-- The handler of `POST /api/withdrawals` after `authenticateToken` has set
`req.user`.  `conn` is the connection the pool hands out, `now` the value of
`Date.now()`. -/
def postWithdrawals (f : Faults) (conn : Nat) (user : Claims) (body : WithdrawalBody)
    (now : Nat) : M Unit := do
  let connection ← getConnection f conn
  try
    beginTransaction f connection
    let payment_method := body.payment_method.getD (.str "M-Pesa")
    let code := transaction_code now
    let insertId ← insertWithdrawal f connection fun id =>
      ⟨id, user.id, code, body.amount, body.withdrawal_account, body.account_name,
        payment_method⟩
    commit f connection
    respond ⟨200, [("message", jstr "Withdrawal request submitted successfully"),
                   ("transaction_code", jstr code),
                   ("withdrawal_id", jnum insertId)]⟩
  catch error =>
    rollback f connection
    logEvent (.consoleError ("Withdrawal error: " ++ error))
    respond ⟨500, [("error", jstr "Internal server error")]⟩
  finally
    release connection

/-- Run of the handler from a world: the error that escapes it (a rejected
promise), if any, and the world it leaves. -/
def runWithdrawals (f : Faults) (conn : Nat) (user : Claims) (body : WithdrawalBody)
    (now : Nat) (w : World) : Option DbError × World :=
  match postWithdrawals f conn user body now w with
  | (.ok _, w1) => (none, w1)
  | (.error e, w1) => (some e, w1)

/-! ## `GET /api/devices` (lines 333-349)

The route is `authenticateToken` followed by the handler.  The handler runs
one `SELECT` on the devices table (named `${TABLE_PREFIX}devices`) with the
single parameter `req.user.id`; it reads nothing else of the request.  The
`account_no` column holds account ids of the type of `req.user.id`, and the
SQL comparison `account_no = ?` is equality on them.  Without `ORDER BY` the
order of the result is the order of the table. -/

/-- A row of the devices table: the columns the source names (`device_id`,
`account_no`, `device_name`) and the remaining columns of `d.*`. -/
structure DeviceRow where
  device_id : Nat
  account_no : Nat
  device_name : String
  other : List (String × JsonAtom)
  deriving DecidableEq

/-- A row of the device transactions table, with the columns the sub-query
reads and the account it belongs to. -/
structure DeviceTransactionRow where
  device_id : Nat
  account_no : Nat
  amount : Int
  deriving DecidableEq

/-- A row of the query result: `d.*` and the computed `balance` (`NULL` is
`none`). -/
structure DeviceResult where
  device : DeviceRow
  balance : Option Int
  deriving DecidableEq

/-- `(SELECT SUM(amount) FROM device_transactions WHERE device_id =
d.device_id)` (lines 337-338): `NULL` when the device has no transaction. -/
def deviceBalance (transactions : List DeviceTransactionRow) (device_id : Nat) : Option Int :=
  match transactions.filter fun t => t.device_id = device_id with
  | [] => none
  | t :: ts => some ((t :: ts).map fun x => x.amount).sum

/-- The `SELECT d.*, (...) as balance FROM devices d WHERE account_no = ?`
statement (lines 336-340) with its parameter. -/
def selectDevices (devices : List DeviceRow) (transactions : List DeviceTransactionRow)
    (account_no : Nat) : List DeviceResult :=
  (devices.filter fun d => d.account_no = account_no).map fun d =>
    ⟨d, deviceBalance transactions d.device_id⟩

/-- The parts of an Express request: the Authorization header, the query
string, the route parameters, the JSON body, and `req.user` (`none` until the
middleware assigns it). -/
structure Request where
  authorization : Option String
  query : List (String × String)
  params : List (String × String)
  body : JsonObj
  user : Option Claims
  deriving DecidableEq

/-- What the devices route sends: the array of rows (`res.json(devices)`), or
an error response. -/
inductive DevicesReply where
  | rows (devices : List DeviceResult)
  | error (r : Response)
  deriving DecidableEq

/-- The handler of `GET /api/devices` (lines 333-349).  `fault` makes
`pool.query` throw; reading `req.user.id` of an unset `req.user` throws as
well; both land in the `catch` block. -/
def getDevices (devices : List DeviceRow) (transactions : List DeviceTransactionRow)
    (fault : Option DbError) (req : Request) : DevicesReply :=
  match req.user with
  | none => .error ⟨500, [("error", jstr "Internal server error")]⟩
  | some user =>
    match fault with
    | some _ => .error ⟨500, [("error", jstr "Internal server error")]⟩
    | none => .rows (selectDevices devices transactions user.id)

/-- The route `app.get('/api/devices', authenticateToken, handler)`: the
handler runs when the middleware calls `next()`, on the request with the
`req.user` the middleware assigned; otherwise the reply is the response of the
middleware. -/
def devicesRoute (verify : String → String → Except AuthError Claims) (secret : String)
    (devices : List DeviceRow) (transactions : List DeviceTransactionRow)
    (fault : Option DbError) (req : Request) : Option DevicesReply :=
  let out := authenticateToken verify secret req.authorization
  if out.nextCalled then
    some (getDevices devices transactions fault { req with user := out.user })
  else out.response.map DevicesReply.error

/-- The device rows a reply carries (none for an error response). -/
def replyRows : Option DevicesReply → List DeviceResult
  | some (.rows rs) => rs
  | _ => []

/-! ## Vocabulary of the statements -/

/-- The text after the first space of a header, `none` when it has no space. -/
def afterFirstSpace : List Char → Option (List Char)
  | [] => none
  | c :: cs => if c = ' ' then some cs else afterFirstSpace cs

/-- The token segment of a header: the characters after its first space up to
the next space; empty when there is no first space. -/
def tokenSegment (h : String) : List Char :=
  match afterFirstSpace h.data with
  | none => []
  | some rest => rest.takeWhile (· ≠ ' ')

/-- A text written in a field of `w` characters, filled with zeros on the left. -/
def zeroPad (w : Nat) (l : List Char) : List Char :=
  List.replicate (w - l.length) '0' ++ l

/-- The `k` low-order decimal digits of `n`, most significant first. -/
def lowDigits : Nat → Nat → List Char
  | 0, _ => []
  | k + 1, n => lowDigits k (n / 10) ++ [Nat.digitChar (n % 10)]

/-- The world at the start of a request: the given committed rows, no open
transaction, no connection out of the pool, nothing sent or logged. -/
def World.start (rows : List WithdrawalRow) (nextId : Nat) : World :=
  ⟨rows, [], false, nextId, [], none, []⟩

/-- No fault. -/
def Faults.none : Faults := ⟨.none, .none, .none, .none, .none⟩

/-! ## Lemmas: splitting -/

theorem splitChars_ne_nil (sep : Char) (l : List Char) : splitChars sep l ≠ [] := by
  cases l with
  | nil => simp [splitChars]
  | cons c cs =>
    unfold splitChars
    split
    · simp
    · split <;> simp

theorem splitChars_of_not_mem (sep : Char) (l : List Char) (h : sep ∉ l) :
    splitChars sep l = [l] := by
  induction l with
  | nil => rfl
  | cons c cs ih =>
    have hc : c ≠ sep := fun e => h (by simp [e])
    have hcs : sep ∉ cs := fun e => h (by simp [e])
    simp [splitChars, hc, ih hcs]

theorem splitChars_append (sep : Char) (pre rest : List Char) (h : sep ∉ pre) :
    splitChars sep (pre ++ sep :: rest) = pre :: splitChars sep rest := by
  induction pre with
  | nil => simp [splitChars]
  | cons c cs ih =>
    have hc : c ≠ sep := fun e => h (by simp [e])
    have hcs : sep ∉ cs := fun e => h (by simp [e])
    simp [splitChars, hc, ih hcs]

/-! ## Lemmas: decimal digits -/

theorem toDigitsCore_append (fuel : Nat) : ∀ (n : Nat) (ds : List Char),
    Nat.toDigitsCore 10 fuel n ds = Nat.toDigitsCore 10 fuel n [] ++ ds := by
  induction fuel with
  | zero => intro n ds; simp [Nat.toDigitsCore]
  | succ k ih =>
    intro n ds
    simp only [Nat.toDigitsCore]
    split
    · simp
    · rw [ih (n / 10) (_ :: ds), ih (n / 10) [_]]
      simp

theorem toDigitsCore_fuel (f1 : Nat) : ∀ (f2 n : Nat), n < f1 → n < f2 →
    Nat.toDigitsCore 10 f1 n [] = Nat.toDigitsCore 10 f2 n [] := by
  induction f1 with
  | zero => intro f2 n h; omega
  | succ k ih =>
    intro f2 n h1 h2
    cases f2 with
    | zero => omega
    | succ k2 =>
      simp only [Nat.toDigitsCore]
      split
      · rfl
      · rename_i hne
        have hlt : n / 10 < n := by omega
        rw [toDigitsCore_append k, toDigitsCore_append k2,
          ih k2 (n / 10) (by omega) (by omega)]

theorem toDigits_small (n : Nat) (h : n < 10) :
    Nat.toDigits 10 n = [Nat.digitChar n] := by
  have h0 : n / 10 = 0 := by omega
  have h1 : n % 10 = n := by omega
  simp [Nat.toDigits, Nat.toDigitsCore, h0, h1]

theorem toDigits_step (n : Nat) (h : 10 ≤ n) :
    Nat.toDigits 10 n = Nat.toDigits 10 (n / 10) ++ [Nat.digitChar (n % 10)] := by
  have h0 : n / 10 ≠ 0 := by omega
  have e : Nat.toDigits 10 n = Nat.toDigitsCore 10 n (n / 10) [Nat.digitChar (n % 10)] := by
    simp only [Nat.toDigits, Nat.toDigitsCore, h0, if_false]
  rw [e, toDigitsCore_append n, toDigitsCore_fuel n (n / 10 + 1) (n / 10) (by omega) (by omega)]
  rfl

theorem digitChar_toNat (d : Nat) (h : d < 10) : (Nat.digitChar d).toNat = 48 + d := by
  interval_cases d <;> rfl

theorem digitVal_digitChar (d : Nat) (h : d < 10) : digitVal (Nat.digitChar d) = some d := by
  simp [digitVal, digitChar_toNat d h]
  omega

/-- Every character of a decimal numeral is a digit. -/
theorem toDigits_isDigit (n : Nat) : ∀ c ∈ Nat.toDigits 10 n, 48 ≤ c.toNat ∧ c.toNat ≤ 57 := by
  induction n using Nat.strong_induction_on with
  | _ n ih =>
    by_cases h : n < 10
    · rw [toDigits_small n h]
      intro c hc
      simp only [List.mem_singleton] at hc
      subst hc
      rw [digitChar_toNat n h]; omega
    · rw [toDigits_step n (by omega)]
      intro c hc
      rw [List.mem_append] at hc
      rcases hc with hc | hc
      · exact ih (n / 10) (by omega) c hc
      · simp only [List.mem_singleton] at hc
        subst hc
        rw [digitChar_toNat (n % 10) (by omega)]; omega

theorem toDigits_ne_nil (n : Nat) : Nat.toDigits 10 n ≠ [] := by
  by_cases h : n < 10
  · rw [toDigits_small n h]; simp
  · rw [toDigits_step n (by omega)]; simp

theorem parseNatAux_append (l : List Char) (c : Char) : ∀ acc : Nat,
    parseNatAux (l ++ [c]) acc =
      (parseNatAux l acc).bind fun v => (digitVal c).map fun d => 10 * v + d := by
  induction l with
  | nil =>
    intro acc
    simp only [List.nil_append, parseNatAux]
    cases digitVal c <;> simp
  | cons x xs ih =>
    intro acc
    simp only [List.cons_append, parseNatAux]
    cases digitVal x with
    | none => simp
    | some d => simpa using ih (10 * acc + d)

theorem parseNatAux_toDigits (n : Nat) : parseNatAux (Nat.toDigits 10 n) 0 = some n := by
  induction n using Nat.strong_induction_on with
  | _ n ih =>
    by_cases h : n < 10
    · rw [toDigits_small n h]
      simp [parseNatAux, digitVal_digitChar n h]
    · rw [toDigits_step n (by omega), parseNatAux_append, ih (n / 10) (by omega),
        digitVal_digitChar (n % 10) (by omega)]
      simp
      omega

theorem parseNat_toDigits (n : Nat) : parseNat (Nat.toDigits 10 n) = some n := by
  simp [parseNat, toDigits_ne_nil, parseNatAux_toDigits]

theorem toDigits_not_mem (n : Nat) (c : Char) (h : c.toNat < 48 ∨ 57 < c.toNat) :
    c ∉ Nat.toDigits 10 n := by
  intro hc
  have := toDigits_isDigit n c hc
  omega

/-! ## Lemmas: the token codec -/

theorem escape_not_mem (c : Char) (hc : c = '.' ∨ c = ' ' ∨ c = '~') (l : List Char) :
    c ∉ escape l := by
  induction l with
  | nil => simp [escape]
  | cons x xs ih =>
    simp only [escape, List.mem_append, not_or]
    refine ⟨?_, ih⟩
    unfold escChar
    rcases hc with rfl | rfl | rfl <;> split_ifs with h1 h2 h3 h4 <;>
      first
        | (intro hm; simp only [List.mem_singleton] at hm; exact absurd hm.symm (by assumption))
        | decide

theorem unescape_cons (c : Char) (hc : c ≠ '_') (l : List Char) :
    unescape (c :: l) = (unescape l).map (c :: ·) := by
  cases l with
  | nil => simp [unescape, hc]
  | cons k rest => simp [unescape, hc]

theorem unescape_escape (l : List Char) : unescape (escape l) = some l := by
  induction l with
  | nil => rfl
  | cons x xs ih =>
    simp only [escape, escChar]
    split_ifs with h1 h2 h3 h4
    · subst h1; simp [unescape, unescCode, ih]
    · subst h2; simp [unescape, unescCode, ih]
    · subst h3; simp [unescape, unescCode, ih]
    · subst h4; simp [unescape, unescCode, ih]
    · simp [unescape_cons x h1, ih]

theorem encodeClaims_not_mem (c : Char) (hc : c = '.' ∨ c = ' ') (x : Claims) :
    c ∉ encodeClaims x := by
  have hd : c.toNat < 48 ∨ 57 < c.toNat := by rcases hc with rfl | rfl <;> decide
  have ht : c ≠ '~' := by rcases hc with rfl | rfl <;> decide
  have he : ∀ l, c ∉ escape l := fun l =>
    escape_not_mem c (by rcases hc with h | h <;> simp [h]) l
  simp only [encodeClaims, List.mem_append, List.mem_cons, not_or]
  exact ⟨toDigits_not_mem _ c hd, ht, toDigits_not_mem _ c hd, ht, toDigits_not_mem _ c hd, ht,
    he _, ht, he _⟩

theorem decodeClaims_encodeClaims (x : Claims) : decodeClaims (encodeClaims x) = some x := by
  have hd : ∀ n, '~' ∉ Nat.toDigits 10 n := fun n =>
    toDigits_not_mem n '~' (by decide)
  have he : ∀ l, '~' ∉ escape l := fun l => escape_not_mem '~' (by simp) l
  have hs : splitChars '~' (encodeClaims x) =
      [Nat.toDigits 10 x.id, Nat.toDigits 10 x.iat, Nat.toDigits 10 x.exp,
        escape x.username.data, escape x.email.data] := by
    simp only [encodeClaims]
    rw [splitChars_append _ _ _ (hd _), splitChars_append _ _ _ (hd _),
      splitChars_append _ _ _ (hd _), splitChars_append _ _ _ (he _),
      splitChars_of_not_mem _ _ (he _)]
  simp only [decodeClaims, hs, parseNat_toDigits, unescape_escape]

theorem encode_data (hmac : List Char → List Char → Nat) (c : Claims) (secret : String) :
    (jwt.encode hmac c secret).data =
      algTag ++ '.' :: (encodeClaims c ++ '.' ::
        Nat.toDigits 10 (hmac secret.data (algTag ++ '.' :: encodeClaims c))) := by
  simp [jwt.encode]

theorem encode_no_space (hmac : List Char → List Char → Nat) (c : Claims) (secret : String) :
    ' ' ∉ (jwt.encode hmac c secret).data := by
  rw [encode_data]
  simp only [List.mem_append, List.mem_cons, not_or]
  exact ⟨by decide, by decide, encodeClaims_not_mem ' ' (by simp) c, by decide,
    toDigits_not_mem _ ' ' (by decide)⟩

theorem encode_ne_empty (hmac : List Char → List Char → Nat) (c : Claims) (secret : String) :
    jwt.encode hmac c secret ≠ "" := by
  intro h
  have := congrArg String.data h
  rw [encode_data] at this
  simp [algTag] at this

/-- Verification of a token made by `encode` under the same secret: the claims
come back until the clock reaches `exp`, then the token is expired. -/
theorem verify_encode (hmac : List Char → List Char → Nat) (r : Bool) (now : Nat)
    (c : Claims) (secret : String) :
    jwt.verify hmac r now (jwt.encode hmac c secret) secret =
      if jwt.isExpired r c.exp now then .error .expired else .ok c := by
  have hs : splitChars '.' (jwt.encode hmac c secret).data =
      [algTag, encodeClaims c,
        Nat.toDigits 10 (hmac secret.data (algTag ++ '.' :: encodeClaims c))] := by
    rw [encode_data, splitChars_append _ _ _ (by decide),
      splitChars_append _ _ _ (encodeClaims_not_mem '.' (by simp) c),
      splitChars_of_not_mem _ _ (toDigits_not_mem _ '.' (by decide))]
  simp only [jwt.verify, hs, decodeClaims_encodeClaims, parseNat_toDigits]
  simp

theorem timespan_24h : timespan "24h" = some 86400 := by decide

theorem sign_24h (hmac : List Char → List Char → Nat) (p : Payload) (secret : String)
    (t : Nat) :
    jwt.sign hmac p secret "24h" t =
      some (jwt.encode hmac ⟨p.id, p.username, p.email, t, t + 86400⟩ secret) := by
  simp [jwt.sign, timespan_24h]

/-! ## Lemmas: token extraction -/

theorem splitChars_head (sep : Char) (l : List Char) :
    (splitChars sep l)[0]? = some (l.takeWhile (· ≠ sep)) := by
  induction l with
  | nil => rfl
  | cons c cs ih =>
    by_cases hc : c = sep
    · simp [splitChars, hc]
    · simp only [splitChars, hc, if_false]
      cases hs : splitChars sep cs with
      | nil => exact absurd hs (splitChars_ne_nil sep cs)
      | cons seg segs =>
        rw [hs] at ih
        simp at ih
        simp [List.takeWhile, hc, ih]

theorem splitChars_second (l : List Char) :
    (splitChars ' ' l)[1]? = (afterFirstSpace l).map fun r => r.takeWhile (· ≠ ' ') := by
  induction l with
  | nil => rfl
  | cons c cs ih =>
    by_cases hc : c = ' '
    · simp only [splitChars, afterFirstSpace, hc, if_true]
      simpa using splitChars_head ' ' cs
    · simp only [splitChars, afterFirstSpace, hc, if_false]
      cases hs : splitChars ' ' cs with
      | nil => exact absurd hs (splitChars_ne_nil ' ' cs)
      | cons seg segs =>
        rw [hs] at ih
        simpa using ih

theorem truthy_some (s : String) : truthy (some s) = decide (s.data ≠ []) := by
  cases s with
  | mk l =>
    cases l with
    | nil => rfl
    | cons c cs => simp [truthy, String.ext_iff]

/-- The token the middleware extracts is the token segment of the header: the
text between the first space and the next one. -/
theorem extractToken_some (s : String) :
    truthy (extractToken (some s)) = decide (tokenSegment s ≠ []) ∧
      (extractToken (some s)).getD "" = ⟨tokenSegment s⟩ := by
  by_cases hs : s.data = []
  · have e : s = "" := String.ext (by simpa using hs)
    subst e
    exact ⟨rfl, rfl⟩
  · have ht : truthy (some s) = true := by simp [truthy_some, hs]
    have e : extractToken (some s) = (afterFirstSpace s.data).map fun r =>
        String.mk (r.takeWhile (· ≠ ' ')) := by
      simp only [extractToken, ht, if_true, jsSplit, List.getElem?_map, splitChars_second]
      cases afterFirstSpace s.data <;> rfl
    rw [e]
    unfold tokenSegment
    cases afterFirstSpace s.data with
    | none => exact ⟨rfl, rfl⟩
    | some r => simp [truthy_some]

/-- The middleware in terms of the token segment of the header. -/
theorem authenticateToken_some (verify : String → String → Except AuthError Claims)
    (secret s : String) :
    authenticateToken verify secret (some s) =
      if tokenSegment s = [] then
        { response := some ⟨401, [("error", jstr "Authentication required")]⟩,
          nextCalled := false, user := none, verifyCalls := [] }
      else
        match verify ⟨tokenSegment s⟩ secret with
        | .ok user =>
          { response := none, nextCalled := true, user := some user,
            verifyCalls := [(⟨tokenSegment s⟩, secret)] }
        | .error _ =>
          { response := some ⟨403, [("error", jstr "Invalid token")]⟩,
            nextCalled := false, user := none,
            verifyCalls := [(⟨tokenSegment s⟩, secret)] } := by
  obtain ⟨h1, h2⟩ := extractToken_some s
  unfold authenticateToken
  simp only [h1, h2]
  by_cases h : tokenSegment s = [] <;> simp [h]

theorem afterFirstSpace_append (scheme rest : List Char) (h : ' ' ∉ scheme) :
    afterFirstSpace (scheme ++ ' ' :: rest) = some rest := by
  induction scheme with
  | nil => simp [afterFirstSpace]
  | cons c cs ih =>
    have hc : c ≠ ' ' := fun e => h (by simp [e])
    have hcs : ' ' ∉ cs := fun e => h (by simp [e])
    simp [afterFirstSpace, hc, ih hcs]

theorem tokenSegment_scheme (scheme rest : List Char) (h : ' ' ∉ scheme) :
    tokenSegment ⟨scheme ++ ' ' :: rest⟩ = rest.takeWhile (· ≠ ' ') := by
  simp [tokenSegment, afterFirstSpace_append scheme rest h]

theorem takeWhile_of_not_mem (l : List Char) (h : ' ' ∉ l) : l.takeWhile (· ≠ ' ') = l := by
  induction l with
  | nil => rfl
  | cons c cs ih =>
    have hc : c ≠ ' ' := fun e => h (by simp [e])
    have hcs : ' ' ∉ cs := fun e => h (by simp [e])
    rw [List.takeWhile_cons, ih hcs]
    simp [hc]

/-- The token segment of `'<scheme> <token>'` for a space-free scheme word and
a space-free token is the token. -/
theorem tokenSegment_scheme_token (scheme : List Char) (token : String) (h : ' ' ∉ scheme)
    (ht : ' ' ∉ token.data) :
    tokenSegment (⟨scheme⟩ ++ " " ++ token) = token.data := by
  have e : (⟨scheme⟩ ++ " " ++ token : String) = ⟨scheme ++ ' ' :: token.data⟩ := by
    apply String.ext; simp
  rw [e, tokenSegment_scheme scheme _ h, takeWhile_of_not_mem _ ht]

theorem isExpired_of_lt (r : Bool) (exp now : Nat) (h : exp < now) :
    jwt.isExpired r exp now = true := by
  simp [jwt.isExpired, h]

theorem isExpired_of_gt (r : Bool) (exp now : Nat) (h : now < exp) :
    jwt.isExpired r exp now = false := by
  have h1 : ¬ exp < now := by omega
  have h2 : ¬ exp = now := by omega
  simp [jwt.isExpired, h1, h2]

/-- A header `'<scheme> <token>'` whose token was made by `encode` under the
secret of the middleware: the request is authorized while the token is not
expired, and answered 403 once it is, whatever the scheme word. -/
theorem authenticateToken_scheme_encode (hmac : List Char → List Char → Nat) (r : Bool)
    (now : Nat) (c : Claims) (secret : String) (scheme : List Char) (h : ' ' ∉ scheme) :
    authenticateToken (jwt.verify hmac r now) secret
        (some (⟨scheme⟩ ++ " " ++ jwt.encode hmac c secret)) =
      if jwt.isExpired r c.exp now then
        { response := some ⟨403, [("error", jstr "Invalid token")]⟩,
          nextCalled := false, user := none,
          verifyCalls := [(jwt.encode hmac c secret, secret)] }
      else
        { response := none, nextCalled := true, user := some c,
          verifyCalls := [(jwt.encode hmac c secret, secret)] } := by
  have hseg := tokenSegment_scheme_token scheme (jwt.encode hmac c secret) h
    (encode_no_space hmac c secret)
  have hne : (jwt.encode hmac c secret).data ≠ [] := by
    intro e
    exact encode_ne_empty hmac c secret (String.ext (by simpa using e))
  rw [authenticateToken_some, hseg]
  simp only [hne, if_false]
  have e : (⟨(jwt.encode hmac c secret).data⟩ : String) = jwt.encode hmac c secret := rfl
  rw [e, verify_encode]
  cases jwt.isExpired r c.exp now <;> simp

theorem bearer_eq (token : String) :
    "Bearer " ++ token = (⟨['B', 'e', 'a', 'r', 'e', 'r']⟩ : String) ++ " " ++ token := by
  apply String.ext; simp

theorem basic_eq (token : String) :
    "Basic " ++ token = (⟨['B', 'a', 's', 'i', 'c']⟩ : String) ++ " " ++ token := by
  apply String.ext; simp

theorem loginToken_eq (hmac : List Char → List Char → Nat) (envSecret : Option String)
    (u : UserRow) (t : Nat) :
    loginToken hmac envSecret u t =
      some (jwt.encode hmac ⟨u.ID, u.user_login, u.user_email, t, t + 86400⟩
        (JWT_SECRET envSecret)) := by
  simp [loginToken, sign_24h, JWT_SECRET]

/-! ## Claims on the authentication middleware -/

/-- C1. For every user row, every keyed hash, either verdict at the instant of
expiry and every issuance time `t` (seconds, the `iat` of the token): login
answers 200 with a token, and that token presented as `'Bearer <token>'` at
any time `now < t + 86400` is accepted by `authenticateToken`: `next()` is
called, no response is sent, and `req.user` carries the `ID`, `user_login` and
`user_email` of the row. -/
theorem login_token_accepted (hmac : List Char → List Char → Nat) (r : Bool)
    (envSecret : Option String) (u : UserRow) (others : List UserRow) (t now : Nat)
    (h : now < t + 86400) :
    ∃ token : String,
      loginToken hmac envSecret u t = some token ∧
      login hmac envSecret (some (u :: others)) u.user_pass t =
        ⟨200, [("token", jstr token),
               ("user", .obj [("id", .num u.ID), ("username", .str u.user_login),
                              ("email", .str u.user_email)])]⟩ ∧
      authenticateToken (jwt.verify hmac r now) (JWT_SECRET envSecret)
          (some ("Bearer " ++ token)) =
        { response := none, nextCalled := true,
          user := some ⟨u.ID, u.user_login, u.user_email, t, t + 86400⟩,
          verifyCalls := [(token, JWT_SECRET envSecret)] } := by
  refine ⟨_, loginToken_eq hmac envSecret u t, ?_, ?_⟩
  · simp [login, loginToken_eq, verifyWordPressPassword]
  · rw [bearer_eq, authenticateToken_scheme_encode hmac r now _ _ _ (by decide),
      isExpired_of_gt r (t + 86400) now h]
    simp

theorem login_token_accepted_witness :
    1700086399 < 1700000000 + 86400 ∧
    ∃ token : String,
      loginToken sampleMac none ⟨7, "john", "john@example.org", "pw"⟩ 1700000000 =
        some token ∧
      login sampleMac none (some [⟨7, "john", "john@example.org", "pw"⟩]) "pw" 1700000000 =
        ⟨200, [("token", jstr token),
               ("user", .obj [("id", .num 7), ("username", .str "john"),
                              ("email", .str "john@example.org")])]⟩ ∧
      authenticateToken (jwt.verify sampleMac true 1700086399) (JWT_SECRET none)
          (some ("Bearer " ++ token)) =
        { response := none, nextCalled := true,
          user := some ⟨7, "john", "john@example.org", 1700000000, 1700000000 + 86400⟩,
          verifyCalls := [(token, JWT_SECRET none)] } :=
  ⟨by decide,
    login_token_accepted sampleMac true none ⟨7, "john", "john@example.org", "pw"⟩ []
      1700000000 1700086399 (by decide)⟩

/-- C2. A request without an Authorization header, or with a header that has
no token segment after its first space (`'Bearer'`, `'Bearer '`), is answered
401 `{error: 'Authentication required'}`; the verifier is not called, `next()`
is not called, and `req.user` is not assigned. -/
theorem no_token_rejected_401 (verify : String → String → Except AuthError Claims)
    (secret : String) (authHeader : Option String)
    (h : authHeader = none ∨ ∃ s, authHeader = some s ∧ tokenSegment s = []) :
    authenticateToken verify secret authHeader =
      { response := some ⟨401, [("error", jstr "Authentication required")]⟩,
        nextCalled := false, user := none, verifyCalls := [] } := by
  rcases h with rfl | ⟨s, rfl, hs⟩
  · rfl
  · rw [authenticateToken_some]
    simp [hs]

theorem no_token_rejected_401_witness :
    ((some "Bearer " : Option String) = none ∨
        ∃ s, (some "Bearer " : Option String) = some s ∧ tokenSegment s = []) ∧
    authenticateToken (jwt.verify sampleMac true 0) "k" (some "Bearer ") =
      { response := some ⟨401, [("error", jstr "Authentication required")]⟩,
        nextCalled := false, user := none, verifyCalls := [] } :=
  ⟨Or.inr ⟨"Bearer ", rfl, by decide⟩,
    no_token_rejected_401 (jwt.verify sampleMac true 0) "k" (some "Bearer ")
      (Or.inr ⟨"Bearer ", rfl, by decide⟩)⟩

/-- C3. A request whose header carries a non-empty token segment on which
`jwt.verify` throws, for whatever reason, is answered 403
`{error: 'Invalid token'}`; `next()` is not called and `req.user` is not
assigned. -/
theorem invalid_token_rejected_403 (verify : String → String → Except AuthError Claims)
    (secret s : String) (e : AuthError) (hseg : tokenSegment s ≠ [])
    (hv : verify ⟨tokenSegment s⟩ secret = .error e) :
    authenticateToken verify secret (some s) =
      { response := some ⟨403, [("error", jstr "Invalid token")]⟩,
        nextCalled := false, user := none,
        verifyCalls := [(⟨tokenSegment s⟩, secret)] } := by
  rw [authenticateToken_some]
  simp [hseg, hv]

theorem invalid_token_rejected_403_witness :
    tokenSegment "Bearer abc" ≠ [] ∧
    jwt.verify sampleMac true 0 ⟨tokenSegment "Bearer abc"⟩ "k" = .error .malformed ∧
    authenticateToken (jwt.verify sampleMac true 0) "k" (some "Bearer abc") =
      { response := some ⟨403, [("error", jstr "Invalid token")]⟩,
        nextCalled := false, user := none,
        verifyCalls := [(⟨tokenSegment "Bearer abc"⟩, "k")] } :=
  ⟨by decide, rfl,
    invalid_token_rejected_403 (jwt.verify sampleMac true 0) "k" "Bearer abc" .malformed
      (by decide) rfl⟩

/-- C4, as stated, fails: the header `'Basic <token>'`, which does not start
with `'Bearer '`, carrying the token login signed for user 7 at
`t = 1700000000`, is authorized 100 seconds later. -/
theorem scheme_not_checked_counterexample :
    loginToken sampleMac none ⟨7, "john", "john@example.org", "pw"⟩ 1700000000 =
      some (jwt.encode sampleMac ⟨7, "john", "john@example.org", 1700000000, 1700086400⟩
        "your-secret-key") ∧
    ("Basic " ++ jwt.encode sampleMac ⟨7, "john", "john@example.org", 1700000000, 1700086400⟩
        "your-secret-key").data.take 7 ≠ "Bearer ".data ∧
    authenticateToken (jwt.verify sampleMac true 1700000100) (JWT_SECRET none)
        (some ("Basic " ++ jwt.encode sampleMac
          ⟨7, "john", "john@example.org", 1700000000, 1700086400⟩ "your-secret-key")) =
      { response := none, nextCalled := true,
        user := some ⟨7, "john", "john@example.org", 1700000000, 1700086400⟩,
        verifyCalls := [(jwt.encode sampleMac
          ⟨7, "john", "john@example.org", 1700000000, 1700086400⟩ "your-secret-key",
          "your-secret-key")] } := by
  refine ⟨loginToken_eq sampleMac none _ 1700000000, ?_, ?_⟩
  · rw [String.data_append, encode_data]
    decide
  · rw [basic_eq]
    have e : JWT_SECRET none = "your-secret-key" := rfl
    rw [e, authenticateToken_scheme_encode sampleMac true 1700000100 _ _ _ (by decide),
      isExpired_of_gt true 1700086400 1700000100 (by decide)]
    simp

/-- C4, amended. The middleware takes the token to be the second
space-separated segment of the header and does not look at the first one: for
every space-free scheme word, `'<scheme> <rest>'` has the outcome of
`'Bearer <rest>'`, and it is answered 401 exactly when `rest` has no
characters before its first space. -/
theorem scheme_word_ignored (verify : String → String → Except AuthError Claims)
    (secret : String) (scheme rest : List Char) (h : ' ' ∉ scheme) :
    authenticateToken verify secret (some ⟨scheme ++ ' ' :: rest⟩) =
        authenticateToken verify secret (some ("Bearer " ++ ⟨rest⟩)) ∧
      ((authenticateToken verify secret (some ⟨scheme ++ ' ' :: rest⟩)).response =
          some ⟨401, [("error", jstr "Authentication required")]⟩ ↔
        rest.takeWhile (· ≠ ' ') = []) := by
  have hb : ("Bearer " ++ (⟨rest⟩ : String)) =
      ⟨['B', 'e', 'a', 'r', 'e', 'r'] ++ ' ' :: rest⟩ := by
    apply String.ext; simp
  have h1 := tokenSegment_scheme scheme rest h
  have h2 := tokenSegment_scheme ['B', 'e', 'a', 'r', 'e', 'r'] rest (by decide)
  refine ⟨?_, ?_⟩
  · rw [hb, authenticateToken_some, authenticateToken_some, h1, h2]
  · rw [authenticateToken_some, h1]
    generalize rest.takeWhile (· ≠ ' ') = seg
    by_cases hr : seg = []
    · rw [if_pos hr]
      simp [hr]
    · rw [if_neg hr]
      simp only [hr, iff_false]
      cases verify ⟨seg⟩ secret <;> simp

theorem scheme_word_ignored_witness :
    ' ' ∉ ['B', 'a', 's', 'i', 'c'] ∧
    authenticateToken (jwt.verify sampleMac true 0) "k"
        (some ⟨['B', 'a', 's', 'i', 'c'] ++ ' ' :: ['a', 'b', 'c']⟩) =
      authenticateToken (jwt.verify sampleMac true 0) "k" (some ("Bearer " ++ ⟨['a', 'b', 'c']⟩)) ∧
    ((authenticateToken (jwt.verify sampleMac true 0) "k"
        (some ⟨['B', 'a', 's', 'i', 'c'] ++ ' ' :: ['a', 'b', 'c']⟩)).response =
        some ⟨401, [("error", jstr "Authentication required")]⟩ ↔
      ['a', 'b', 'c'].takeWhile (· ≠ ' ') = []) :=
  ⟨by decide,
    scheme_word_ignored (jwt.verify sampleMac true 0) "k" ['B', 'a', 's', 'i', 'c']
      ['a', 'b', 'c'] (by decide)⟩

/-- C5. The token login signs at `t` verifies at `t` with `iat = t` and
`exp = iat + 86400`; at every time later than that expiry `jwt.verify` throws
`expired` under the very secret it was signed with, and `authenticateToken`
answers 403 without calling `next()`. -/
theorem login_token_expires (hmac : List Char → List Char → Nat) (r : Bool)
    (envSecret : Option String) (u : UserRow) (t now : Nat) (h : t + 86400 < now) :
    ∃ token : String,
      loginToken hmac envSecret u t = some token ∧
      (∃ c : Claims, jwt.verify hmac r t token (JWT_SECRET envSecret) = .ok c ∧
        c.iat = t ∧ c.exp = c.iat + 86400) ∧
      jwt.verify hmac r now token (JWT_SECRET envSecret) = .error .expired ∧
      authenticateToken (jwt.verify hmac r now) (JWT_SECRET envSecret)
          (some ("Bearer " ++ token)) =
        { response := some ⟨403, [("error", jstr "Invalid token")]⟩,
          nextCalled := false, user := none,
          verifyCalls := [(token, JWT_SECRET envSecret)] } := by
  refine ⟨_, loginToken_eq hmac envSecret u t, ?_, ?_, ?_⟩
  · refine ⟨⟨u.ID, u.user_login, u.user_email, t, t + 86400⟩, ?_, rfl, rfl⟩
    rw [verify_encode, isExpired_of_gt r (t + 86400) t (by omega)]
    simp
  · rw [verify_encode, isExpired_of_lt r (t + 86400) now h]
    simp
  · rw [bearer_eq, authenticateToken_scheme_encode hmac r now _ _ _ (by decide),
      isExpired_of_lt r (t + 86400) now h]
    simp

theorem login_token_expires_witness :
    1700000000 + 86400 < 1700086401 ∧
    ∃ token : String,
      loginToken sampleMac (some "s3cret") ⟨7, "john", "john@example.org", "pw"⟩
        1700000000 = some token ∧
      (∃ c : Claims, jwt.verify sampleMac true 1700000000 token (JWT_SECRET (some "s3cret")) =
          .ok c ∧ c.iat = 1700000000 ∧ c.exp = c.iat + 86400) ∧
      jwt.verify sampleMac true 1700086401 token (JWT_SECRET (some "s3cret")) = .error .expired ∧
      authenticateToken (jwt.verify sampleMac true 1700086401) (JWT_SECRET (some "s3cret"))
          (some ("Bearer " ++ token)) =
        { response := some ⟨403, [("error", jstr "Invalid token")]⟩,
          nextCalled := false, user := none,
          verifyCalls := [(token, JWT_SECRET (some "s3cret"))] } :=
  ⟨by decide,
    login_token_expires sampleMac true (some "s3cret") ⟨7, "john", "john@example.org", "pw"⟩
      1700000000 1700086401 (by decide)⟩

/-! ## Claims on the withdrawal handler -/

/-- C6. Atomicity. With the connection acquired: when `beginTransaction`, the
`INSERT` or `commit` throws, the handler calls `rollback` on the connection it
began the transaction on (and on no other), the committed rows are the rows
from before the request, and nothing stays pending once that rollback
succeeds; when none of them throws, the committed rows are the rows from
before plus exactly the one row of this request. -/
theorem withdrawal_atomic (f : Faults) (conn : Nat) (user : Claims) (body : WithdrawalBody)
    (now : Nat) (w : World) (hclean : w.pending = []) (hget : f.getConnection = none) :
    (f.beginTransaction.isSome ∨ f.insert.isSome ∨ f.commit.isSome →
      (runWithdrawals f conn user body now w).2.committed = w.committed ∧
      Event.beginTransaction conn ∈
        (runWithdrawals f conn user body now w).2.events.drop w.events.length ∧
      Event.rollback conn ∈
        (runWithdrawals f conn user body now w).2.events.drop w.events.length ∧
      (∀ c, Event.rollback c ∈
        (runWithdrawals f conn user body now w).2.events.drop w.events.length → c = conn) ∧
      (f.rollback = none → (runWithdrawals f conn user body now w).2.pending = [])) ∧
    (f.beginTransaction = none → f.insert = none → f.commit = none →
      (runWithdrawals f conn user body now w).2.committed =
        w.committed ++ [⟨w.nextId, user.id, transaction_code now, body.amount,
          body.withdrawal_account, body.account_name,
          body.payment_method.getD (.str "M-Pesa")⟩] ∧
      (runWithdrawals f conn user body now w).2.pending = []) := by
  obtain ⟨g, b, i, c, r⟩ := f
  simp only at hget
  subst hget
  cases b <;> cases i <;> cases c <;> cases r <;>
    simp_all [runWithdrawals, postWithdrawals, getConnection, beginTransaction,
      insertWithdrawal, commit, rollback, release, respond, logEvent, failWith, bind,
      tryCatch, tryFinally, tryCatchThe, MonadExcept.tryCatch, MonadExceptOf.tryCatch,
      MonadFinally.tryFinally', pure, Functor.map]

theorem withdrawal_atomic_witness :
    (World.start [] 1).pending = [] ∧
    (⟨none, none, none, some "Lock wait timeout exceeded", none⟩ : Faults).getConnection = none ∧
    (runWithdrawals ⟨none, none, none, some "Lock wait timeout exceeded", none⟩ 3
        ⟨7, "john", "john@example.org", 0, 86400⟩
        ⟨some (.num 5000), some (.str "+254700000000"), some (.str "John"), none⟩
        1700000012345 (World.start [] 1)).2.committed = [] ∧
    (runWithdrawals Faults.none 3 ⟨7, "john", "john@example.org", 0, 86400⟩
        ⟨some (.num 5000), some (.str "+254700000000"), some (.str "John"), none⟩
        1700000012345 (World.start [] 1)).2.committed =
      [⟨1, 7, transaction_code 1700000012345, some (.num 5000),
        some (.str "+254700000000"), some (.str "John"), .str "M-Pesa"⟩] :=
  ⟨rfl, rfl,
    ((withdrawal_atomic ⟨none, none, none, some "Lock wait timeout exceeded", none⟩ 3
        ⟨7, "john", "john@example.org", 0, 86400⟩
        ⟨some (.num 5000), some (.str "+254700000000"), some (.str "John"), none⟩
        1700000012345 (World.start [] 1) rfl rfl).1 (Or.inr (Or.inr rfl))).1,
    ((withdrawal_atomic Faults.none 3 ⟨7, "john", "john@example.org", 0, 86400⟩
        ⟨some (.num 5000), some (.str "+254700000000"), some (.str "John"), none⟩
        1700000012345 (World.start [] 1) rfl rfl).2 rfl rfl rfl).1⟩

/-- C7, evaluated where it fails. When `pool.getConnection()` throws, the
error leaves the handler before the `try` block and no response is sent; when
`commit` throws and the `rollback` in the `catch` block throws as well, the
second error leaves the handler and no response is sent either. -/
theorem withdrawal_error_without_response :
    runWithdrawals ⟨some "ECONNREFUSED", none, none, none, none⟩ 3
        ⟨7, "john", "john@example.org", 0, 86400⟩
        ⟨some (.num 5000), some (.str "+254700000000"), some (.str "John"), none⟩
        1700000012345 (World.start [] 1) =
      (some "ECONNREFUSED",
        { World.start [] 1 with events := [.getConnection] }) ∧
    (runWithdrawals ⟨none, none, none, some "Lock wait timeout exceeded",
          some "Connection lost"⟩ 3
        ⟨7, "john", "john@example.org", 0, 86400⟩
        ⟨some (.num 5000), some (.str "+254700000000"), some (.str "John"), none⟩
        1700000012345 (World.start [] 1)).1 = some "Connection lost" ∧
    (runWithdrawals ⟨none, none, none, some "Lock wait timeout exceeded",
          some "Connection lost"⟩ 3
        ⟨7, "john", "john@example.org", 0, 86400⟩
        ⟨some (.num 5000), some (.str "+254700000000"), some (.str "John"), none⟩
        1700000012345 (World.start [] 1)).2.response = none ∧
    (runWithdrawals ⟨none, none, none, some "Lock wait timeout exceeded", none⟩ 3
        ⟨7, "john", "john@example.org", 0, 86400⟩
        ⟨some (.num 5000), some (.str "+254700000000"), some (.str "John"), none⟩
        1700000012345 (World.start [] 1)).2.response =
      some ⟨500, [("error", jstr "Internal server error")]⟩ :=
  ⟨rfl, rfl, rfl, rfl⟩

/-- C8. On every run, whatever faults are injected (a throwing `rollback`
included): the handler releases the connection as many times as it acquired
one (once when `getConnection` succeeds, never when it throws), it releases no
other connection, and the connections out of the pool after the handler are
those from before it. -/
theorem connection_released_once (f : Faults) (conn : Nat) (user : Claims)
    (body : WithdrawalBody) (now : Nat) (w : World) :
    ((runWithdrawals f conn user body now w).2.events.drop w.events.length).count
        (Event.release conn) = (if f.getConnection = none then 1 else 0) ∧
    (∀ c, Event.release c ∈
      (runWithdrawals f conn user body now w).2.events.drop w.events.length → c = conn) ∧
    (runWithdrawals f conn user body now w).2.leased = w.leased := by
  obtain ⟨g, b, i, c, r⟩ := f
  cases g <;> cases b <;> cases i <;> cases c <;> cases r <;>
    simp_all [runWithdrawals, postWithdrawals, getConnection, beginTransaction,
      insertWithdrawal, commit, rollback, release, respond, logEvent, failWith, bind,
      tryCatch, tryFinally, tryCatchThe, MonadExcept.tryCatch, MonadExceptOf.tryCatch,
      MonadFinally.tryFinally', pure, Functor.map]

/-! ## Lemmas: the transaction code -/

theorem drop_toDigits (k : Nat) : ∀ n : Nat, (k = 0 ∨ 10 ^ (k - 1) ≤ n) →
    (Nat.toDigits 10 n).drop ((Nat.toDigits 10 n).length - k) = lowDigits k n := by
  induction k with
  | zero => intro n _; simp [lowDigits]
  | succ k ih =>
    intro n h
    have hn : 10 ^ k ≤ n := by simpa using h
    by_cases hlt : n < 10
    · have hk : k = 0 := by
        by_contra hk
        have : 10 ^ 1 ≤ 10 ^ k := Nat.pow_le_pow_right (by decide) (by omega)
        omega
      subst hk
      have h1 : n % 10 = n := by omega
      simp [toDigits_small n hlt, lowDigits, h1]
    · have hk : k = 0 ∨ 10 ^ (k - 1) ≤ n / 10 := by
        by_cases hk : k = 0
        · exact Or.inl hk
        · right
          obtain ⟨j, rfl⟩ : ∃ j, k = j + 1 := ⟨k - 1, by omega⟩
          simp only [Nat.add_sub_cancel]
          rw [Nat.pow_succ] at hn
          omega
      have e : (Nat.toDigits 10 (n / 10)).length + 1 - (k + 1) =
          (Nat.toDigits 10 (n / 10)).length - k := by omega
      rw [toDigits_step n (by omega), List.length_append, List.length_singleton, e,
        List.drop_append_of_le_length (by omega), ih (n / 10) hk]
      rfl

theorem zeroPad_snoc (k : Nat) (l : List Char) (d : Char) :
    zeroPad (k + 1) (l ++ [d]) = zeroPad k l ++ [d] := by
  simp [zeroPad]

theorem zeroPad_toDigits (k : Nat) : ∀ n : Nat,
    zeroPad (k + 1) (Nat.toDigits 10 (n % 10 ^ (k + 1))) = lowDigits (k + 1) n := by
  induction k with
  | zero =>
    intro n
    have h : n % 10 < 10 := Nat.mod_lt _ (by decide)
    simp [toDigits_small _ h, zeroPad, lowDigits]
  | succ k ih =>
    intro n
    have hm10 : n % 10 ^ (k + 1 + 1) % 10 = n % 10 := by
      rw [Nat.pow_succ, Nat.mul_comm]
      exact Nat.mod_mul_right_mod n 10 (10 ^ (k + 1))
    have hd10 : n % 10 ^ (k + 1 + 1) / 10 = n / 10 % 10 ^ (k + 1) := by
      rw [Nat.pow_succ, Nat.mul_comm, Nat.mod_mul_right_div_self]
    have hrec : lowDigits (k + 1 + 1) n =
        lowDigits (k + 1) (n / 10) ++ [Nat.digitChar (n % 10)] := rfl
    rw [hrec, ← ih (n / 10)]
    by_cases hlt : n % 10 ^ (k + 1 + 1) < 10
    · have h0 : n / 10 % 10 ^ (k + 1) = 0 := by rw [← hd10]; omega
      have h1 : n % 10 ^ (k + 1 + 1) = n % 10 := by rw [← hm10]; omega
      rw [toDigits_small _ hlt, h0, h1, toDigits_small 0 (by decide)]
      simp [zeroPad, List.replicate_succ']
      rfl
    · rw [toDigits_step _ (by omega), zeroPad_snoc, hm10, hd10]

theorem lowDigits_length (k : Nat) : ∀ n : Nat, (lowDigits k n).length = k := by
  induction k with
  | zero => intro n; rfl
  | succ k ih => intro n; simp [lowDigits, ih]

theorem lowDigits_isDigit (k : Nat) : ∀ n : Nat, ∀ c ∈ lowDigits k n,
    48 ≤ c.toNat ∧ c.toNat ≤ 57 := by
  induction k with
  | zero => intro n c hc; simp [lowDigits] at hc
  | succ k ih =>
    intro n c hc
    simp only [lowDigits, List.mem_append, List.mem_singleton] at hc
    rcases hc with hc | hc
    · exact ih _ c hc
    · subst hc
      rw [digitChar_toNat _ (Nat.mod_lt _ (by decide))]
      have := Nat.mod_lt n (show 0 < 10 by decide)
      omega

theorem parseNatAux_lowDigits (k : Nat) : ∀ n : Nat,
    parseNatAux (lowDigits k n) 0 = some (n % 10 ^ k) := by
  induction k with
  | zero => intro n; simp [lowDigits, parseNatAux, Nat.mod_one]
  | succ k ih =>
    intro n
    simp only [lowDigits]
    rw [parseNatAux_append, ih (n / 10), digitVal_digitChar _ (Nat.mod_lt _ (by decide))]
    simp only [Option.map_some']
    rw [Nat.pow_succ, Nat.mul_comm (10 ^ k) 10, Nat.mod_mul]
    simp only [Option.bind, Option.some.injEq]
    omega

/-- The transaction code is `W` and the eight low-order decimal digits of the
timestamp, once the timestamp has eight digits. -/
theorem transaction_code_data (n : Nat) (h : 10 ^ 7 ≤ n) :
    (transaction_code n).data = 'W' :: lowDigits 8 n := by
  have e : (transaction_code n).data =
      'W' :: (Nat.toDigits 10 n).drop ((Nat.toDigits 10 n).length - 8) := by
    simp [transaction_code, sliceLast, Nat.repr, List.asString]
  rw [e, drop_toDigits 8 n (Or.inr h)]

theorem transaction_code_low (n : Nat) (h : 10 ^ 7 ≤ n) :
    transaction_code n = ⟨'W' :: zeroPad 8 (Nat.toDigits 10 (n % 10 ^ 8))⟩ := by
  apply String.ext
  rw [transaction_code_data n h, zeroPad_toDigits 7 n]

theorem transaction_code_eq_iff (n m : Nat) (hn : 10 ^ 7 ≤ n) (hm : 10 ^ 7 ≤ m) :
    transaction_code n = transaction_code m ↔ n % 10 ^ 8 = m % 10 ^ 8 := by
  constructor
  · intro h
    have hd := congrArg String.data h
    rw [transaction_code_data n hn, transaction_code_data m hm] at hd
    have hl : lowDigits 8 n = lowDigits 8 m := by simpa using hd
    have hp := congrArg (fun l => parseNatAux l 0) hl
    simpa [parseNatAux_lowDigits] using hp
  · intro h
    rw [transaction_code_low n hn, transaction_code_low m hm, h]

/-! ## Claims on the transaction code -/

/-- C9. For every timestamp `n ≥ 10^7` the transaction code is the letter `W`
followed by `n mod 10^8` written in decimal with leading zeros in a field of
eight characters, and that field is exactly eight decimal digits. -/
theorem transaction_code_pattern (n : Nat) (h : 10 ^ 7 ≤ n) :
    transaction_code n = ⟨'W' :: zeroPad 8 (Nat.toDigits 10 (n % 10 ^ 8))⟩ ∧
    (zeroPad 8 (Nat.toDigits 10 (n % 10 ^ 8))).length = 8 ∧
    ∀ c ∈ zeroPad 8 (Nat.toDigits 10 (n % 10 ^ 8)), c.isDigit = true := by
  refine ⟨transaction_code_low n h, ?_, ?_⟩
  · rw [zeroPad_toDigits 7 n]
    exact lowDigits_length 8 n
  · rw [zeroPad_toDigits 7 n]
    intro c hc
    have hb := lowDigits_isDigit 8 n c hc
    simp only [Char.isDigit, Bool.and_eq_true, decide_eq_true_eq, ge_iff_le]
    exact ⟨hb.1, hb.2⟩

theorem transaction_code_pattern_witness :
    10 ^ 7 ≤ 1700000012345 ∧
    transaction_code 1700000012345 =
      ⟨'W' :: zeroPad 8 (Nat.toDigits 10 (1700000012345 % 10 ^ 8))⟩ ∧
    (zeroPad 8 (Nat.toDigits 10 (1700000012345 % 10 ^ 8))).length = 8 ∧
    ∀ c ∈ zeroPad 8 (Nat.toDigits 10 (1700000012345 % 10 ^ 8)), c.isDigit = true :=
  ⟨by decide, transaction_code_pattern 1700000012345 (by decide)⟩

/-- C10, as stated, fails: the timestamps 1700000000000 and 1700100000000
differ (by 10^8 ms) and get the same transaction code. -/
theorem transaction_code_collision :
    (1700000000000 : Nat) ≠ 1700100000000 ∧
    transaction_code 1700000000000 = transaction_code 1700100000000 := by
  decide

/-- C10, amended. Two timestamps of at least eight digits get the same
transaction code exactly when they are congruent modulo 10^8; so two
different timestamps less than 10^8 ms apart get different codes. -/
theorem transaction_code_unique_within_window (n m : Nat) (hn : 10 ^ 7 ≤ n)
    (hm : 10 ^ 7 ≤ m) :
    (transaction_code n = transaction_code m ↔ n % 10 ^ 8 = m % 10 ^ 8) ∧
    (n < m → m < n + 10 ^ 8 → transaction_code n ≠ transaction_code m) := by
  refine ⟨transaction_code_eq_iff n m hn hm, ?_⟩
  intro h1 h2 he
  have := (transaction_code_eq_iff n m hn hm).mp he
  omega

theorem transaction_code_unique_within_window_witness :
    10 ^ 7 ≤ 1700000000000 ∧ 10 ^ 7 ≤ 1700000000001 ∧
    (transaction_code 1700000000000 = transaction_code 1700000000001 ↔
      1700000000000 % 10 ^ 8 = 1700000000001 % 10 ^ 8) ∧
    (1700000000000 < 1700000000001 → 1700000000001 < 1700000000000 + 10 ^ 8 →
      transaction_code 1700000000000 ≠ transaction_code 1700000000001) :=
  ⟨by decide, by decide,
    transaction_code_unique_within_window 1700000000000 1700000000001 (by decide)
      (by decide)⟩

/-! ## Lemmas: the devices route -/

/-- The middleware calls `next()` exactly when it assigns `req.user`. -/
theorem nextCalled_eq_user_isSome (verify : String → String → Except AuthError Claims)
    (secret : String) (authHeader : Option String) :
    (authenticateToken verify secret authHeader).nextCalled =
      (authenticateToken verify secret authHeader).user.isSome := by
  unfold authenticateToken
  simp only
  split
  · rfl
  · split <;> rfl

/-- The route for an authenticated request: the handler runs with the claims
of the verified token as `req.user`. -/
theorem devicesRoute_authenticated (verify : String → String → Except AuthError Claims)
    (secret : String) (devices : List DeviceRow) (transactions : List DeviceTransactionRow)
    (fault : Option DbError) (req : Request) (c : Claims)
    (hauth : (authenticateToken verify secret req.authorization).user = some c) :
    devicesRoute verify secret devices transactions fault req =
      some (match fault with
        | some _ => .error ⟨500, [("error", jstr "Internal server error")]⟩
        | none => .rows (selectDevices devices transactions c.id)) := by
  have hn : (authenticateToken verify secret req.authorization).nextCalled = true := by
    rw [nextCalled_eq_user_isSome, hauth]; rfl
  simp only [devicesRoute, hn, if_true, hauth, getDevices]

theorem mem_selectDevices (devices : List DeviceRow) (transactions : List DeviceTransactionRow)
    (account_no : Nat) (r : DeviceResult) :
    r ∈ selectDevices devices transactions account_no ↔
      r.device ∈ devices ∧ r.device.account_no = account_no ∧
        r.balance = deviceBalance transactions r.device.device_id := by
  simp only [selectDevices, List.mem_map, List.mem_filter, decide_eq_true_eq]
  constructor
  · rintro ⟨d, ⟨hd, ha⟩, rfl⟩
    exact ⟨hd, ha, rfl⟩
  · rintro ⟨hd, ha, hb⟩
    refine ⟨r.device, ⟨hd, ha⟩, ?_⟩
    cases r
    simp_all

/-! ## Claim on the devices route -/

/-- C11. For every request that `authenticateToken` authorizes with claims
`c`, every content of the devices and transactions tables and every fault: each
row of the reply is a row of the devices table with `account_no = c.id`; when
the query does not throw, the reply is the array of exactly the device rows
with `account_no = c.id`, so each of them is returned; and the reply is the
same for every request with the same Authorization header, whatever its query
string, route parameters, body or previous `req.user`. -/
theorem devices_only_own_account (verify : String → String → Except AuthError Claims)
    (secret : String) (devices : List DeviceRow) (transactions : List DeviceTransactionRow)
    (fault : Option DbError) (req : Request) (c : Claims)
    (hauth : (authenticateToken verify secret req.authorization).user = some c) :
    (∀ r ∈ replyRows (devicesRoute verify secret devices transactions fault req),
      r.device ∈ devices ∧ r.device.account_no = c.id) ∧
    (fault = none →
      (∃ rs, devicesRoute verify secret devices transactions fault req = some (.rows rs) ∧
        rs.map (fun r => r.device) = devices.filter fun d => d.account_no = c.id) ∧
      ∀ d ∈ devices, d.account_no = c.id →
        ∃ r ∈ replyRows (devicesRoute verify secret devices transactions fault req),
          r.device = d) ∧
    (∀ req2 : Request, req2.authorization = req.authorization →
      devicesRoute verify secret devices transactions fault req2 =
        devicesRoute verify secret devices transactions fault req) := by
  have hr := devicesRoute_authenticated verify secret devices transactions fault req c hauth
  refine ⟨?_, ?_, ?_⟩
  · intro r hmem
    rw [hr] at hmem
    cases fault with
    | some e => simp [replyRows] at hmem
    | none =>
      have := (mem_selectDevices devices transactions c.id r).mp hmem
      exact ⟨this.1, this.2.1⟩
  · intro hf
    subst hf
    rw [hr]
    refine ⟨⟨_, rfl, ?_⟩, ?_⟩
    · simp [selectDevices, List.map_map, Function.comp_def]
    · intro d hd ha
      refine ⟨⟨d, deviceBalance transactions d.device_id⟩, ?_, rfl⟩
      exact (mem_selectDevices devices transactions c.id _).mpr ⟨hd, ha, rfl⟩
  · intro req2 h2
    rw [hr, devicesRoute_authenticated verify secret devices transactions fault req2 c
      (by rw [h2]; exact hauth)]

theorem devices_only_own_account_witness :
    (authenticateToken (jwt.verify sampleMac true 1700000100) "your-secret-key"
        (⟨some ("Bearer " ++ jwt.encode sampleMac
            ⟨7, "john", "john@example.org", 1700000000, 1700086400⟩ "your-secret-key"),
          [("account_no", "8")], [("id", "2")], [("account_no", jnum 8)],
          none⟩ : Request).authorization).user =
      some ⟨7, "john", "john@example.org", 1700000000, 1700086400⟩ ∧
    ∀ r ∈ replyRows (devicesRoute (jwt.verify sampleMac true 1700000100) "your-secret-key"
        [⟨1, 7, "A", []⟩, ⟨2, 8, "B", []⟩, ⟨3, 7, "C", []⟩] [⟨1, 7, 50⟩, ⟨2, 8, 5⟩] none
        ⟨some ("Bearer " ++ jwt.encode sampleMac
            ⟨7, "john", "john@example.org", 1700000000, 1700086400⟩ "your-secret-key"),
          [("account_no", "8")], [("id", "2")], [("account_no", jnum 8)], none⟩),
      r.device ∈ ([⟨1, 7, "A", []⟩, ⟨2, 8, "B", []⟩, ⟨3, 7, "C", []⟩] : List DeviceRow) ∧
        r.device.account_no = 7 :=
  have hauth : (authenticateToken (jwt.verify sampleMac true 1700000100) "your-secret-key"
      (⟨some ("Bearer " ++ jwt.encode sampleMac
          ⟨7, "john", "john@example.org", 1700000000, 1700086400⟩ "your-secret-key"),
        [("account_no", "8")], [("id", "2")], [("account_no", jnum 8)],
        none⟩ : Request).authorization).user =
      some ⟨7, "john", "john@example.org", 1700000000, 1700086400⟩ := by
    show (authenticateToken _ _ (some ("Bearer " ++ _))).user = _
    rw [bearer_eq, authenticateToken_scheme_encode sampleMac true 1700000100 _ _ _ (by decide),
      isExpired_of_gt true 1700086400 1700000100 (by decide)]
    rfl
  ⟨hauth,
    (devices_only_own_account (jwt.verify sampleMac true 1700000100) "your-secret-key"
      [⟨1, 7, "A", []⟩, ⟨2, 8, "B", []⟩, ⟨3, 7, "C", []⟩] [⟨1, 7, 50⟩, ⟨2, 8, 5⟩] none
      ⟨some ("Bearer " ++ jwt.encode sampleMac
          ⟨7, "john", "john@example.org", 1700000000, 1700086400⟩ "your-secret-key"),
        [("account_no", "8")], [("id", "2")], [("account_no", jnum 8)], none⟩
      ⟨7, "john", "john@example.org", 1700000000, 1700086400⟩ hauth).1⟩

end KTS
